import Mathlib

/-!
Shallow embedding of the YouTube brand-mention search client
(`src/App.jsx` state machine, `src/components/VideoCard.jsx` pure helpers,
`src/components/SearchForm.jsx` submit guard), with theorems settling the
frozen claims about the specification.
-/

namespace BrandSearch

/-- Filter fields captured at submit time (the `filters` useState object;
all four are plain strings, empty string meaning "not set"). -/
structure Filters where
  minDate : String
  maxDate : String
  minViews : String
  channelName : String
deriving DecidableEq

/-- One video result as consumed by the UI (JSON fields of a VideoResult). -/
structure Video where
  vid : String
  title : String
  description : String
  channelTitle : String
  publishedAt : String
  thumbnail : String
  viewCount : Nat
  matchType : List String
  transcriptMatches : List String
deriving DecidableEq

/-- One response page: `{ videos, next_page_token, total_results }`.
`nextPageToken = none` models JSON `null`. -/
structure Page where
  videos : List Video
  nextPageToken : Option String
  totalResults : Nat
deriving DecidableEq

/-- The controller state: the six useState hooks of `App` plus the captured
filters (`keyword, results, loading, error, nextPageToken, totalResults`). -/
structure SearchState where
  keyword : String
  filters : Filters
  results : List Video
  loading : Bool
  error : Option String
  nextPageToken : Option String
  totalResults : Nat
deriving DecidableEq

/-- All-empty filters, the `useState` initializer. -/
def emptyFilters : Filters := ⟨"", "", "", ""⟩

/-- Initial state from the `useState` initializers in `App`. -/
def init0 : SearchState :=
  { keyword := ""
    filters := emptyFilters
    results := []
    loading := false
    error := none
    nextPageToken := none
    totalResults := 0 }

/-- JS truthiness test used by `if (!nextPageToken ...)`: the token is falsy
when it is `null` or the empty string. -/
def tokenFalsy : Option String → Bool
  | none => true
  | some t => t.isEmpty

/-- JS guard `if (!searchKeyword.trim()) return;`: `trim()` removes leading
and trailing whitespace, and the result is falsy exactly when it is empty,
i.e. when every character of the keyword is whitespace (we use this
equivalent form because it is directly computable over the char list). -/
def trimEmpty (s : String) : Bool := s.data.all Char.isWhitespace

/-- The synchronous part of `handleSearch` before the fetch resolves:
`setKeyword, setFilters, setLoading(true), setError(null), setResults([]),
setNextPageToken(null)`. `totalResults` is not touched here. -/
def searchBegin (s : SearchState) (kw : String) (fl : Filters) : SearchState :=
  { s with
    keyword := kw
    filters := fl
    loading := true
    error := none
    results := []
    nextPageToken := none }

/-- `handleSearch(searchKeyword, searchFilters)` run through one full request
cycle, with the network response supplied as an oracle (`Except.ok` for a
2xx JSON page, `Except.error` for a thrown transport/HTTP error message).
Returns the new state and whether a request was issued.
Source guard: `if (!searchKeyword.trim()) return;`. -/
def handleSearch (s : SearchState) (kw : String) (fl : Filters)
    (resp : Except String Page) : SearchState × Bool :=
  if trimEmpty kw then (s, false)
  else
    let s1 := searchBegin s kw fl
    match resp with
    | Except.ok d =>
        ({ s1 with
            results := d.videos
            nextPageToken := d.nextPageToken
            totalResults := d.totalResults
            loading := false }, true)
    | Except.error m =>
        ({ s1 with error := some m, loading := false }, true)

/-- The synchronous part of `loadMore` after its guard: only
`setLoading(true)`. In particular `error` is NOT cleared here. -/
def moreBegin (s : SearchState) : SearchState :=
  { s with loading := true }

/-- `loadMore()` run through one full request cycle with the response as an
oracle. Source guard: `if (!nextPageToken || loading) return;`.
On success the source runs `setResults([...results, ...data.videos])` with
the pre-call `results` closure and replaces the token; `totalResults` is not
recomputed. On failure only `error` is set. `loading` resets in `finally`. -/
def loadMore (s : SearchState) (resp : Except String Page) :
    SearchState × Bool :=
  if tokenFalsy s.nextPageToken || s.loading then (s, false)
  else
    let s1 := moreBegin s
    match resp with
    | Except.ok d =>
        ({ s1 with
            results := s.results ++ d.videos
            nextPageToken := d.nextPageToken
            loading := false }, true)
    | Except.error m =>
        ({ s1 with error := some m, loading := false }, true)

/-- Fold a list of successful page responses through `loadMore`. -/
def runLoadMores (s : SearchState) (pages : List Page) : SearchState :=
  pages.foldl (fun st p => (loadMore st (Except.ok p)).1) s

/-- The chain of page tokens allows each successive `loadMore` to fire:
the token available before each page arrival is truthy. -/
def chainOk : Option String → List Page → Bool
  | _, [] => true
  | t, p :: ps => !tokenFalsy t && chainOk p.nextPageToken ps

/-- `SearchForm.handleSubmit`: guarded by the same `if (!keyword.trim())
return;`, then calls `onSearch(keyword, filters)`. Returns the arguments of
that call, or `none` when the submit is swallowed. -/
def handleSubmit (kw : String) (fl : Filters) : Option (String × Filters) :=
  if trimEmpty kw then none else some (kw, fl)

/-!
Interleaved event model. The two `async` handlers suspend at `await fetch`,
so between issuing a request and its completion other events may run. A
`Fetch` records the data the corresponding continuation closed over.
-/

/-- One in-flight request together with the closure state its `.then`
continuation captured: `handleSearch`'s continuation needs nothing from the
old state; `loadMore`'s captured `results` (the list it will append to). -/
inductive Fetch where
  | search (kw : String) (fl : Filters)
  | more (kw : String) (token : String) (base : List Video) (fl : Filters)
deriving DecidableEq

/-- The whole client: controller state plus the queue of outstanding
fetches, in issue order. -/
structure App where
  st : SearchState
  inflight : List Fetch
deriving DecidableEq

/-- Initial application: initial hooks, no outstanding fetch. -/
def appInit : App := { st := init0, inflight := [] }

/-- Event: the user submits a search. `handleSearch` checks only the
keyword (there is no `loading` guard in the source), updates the hooks
synchronously and issues a fetch. -/
def stepSearch (a : App) (kw : String) (fl : Filters) : App :=
  if trimEmpty kw then a
  else
    { st := searchBegin a.st kw fl
      inflight := a.inflight ++ [Fetch.search kw fl] }

/-- Event: the user clicks "Load More". Guarded by
`if (!nextPageToken || loading) return;`; otherwise sets `loading` and
issues a fetch capturing the current `results` and token. -/
def stepMore (a : App) : App :=
  if tokenFalsy a.st.nextPageToken || a.st.loading then a
  else
    { st := moreBegin a.st
      inflight := a.inflight ++
        [Fetch.more a.st.keyword (a.st.nextPageToken.getD "") a.st.results
          a.st.filters] }

/-- The continuation of a fetch applied to the current state when its
response arrives (the `try`/`catch`/`finally` tail of each handler). -/
def applyResp (st : SearchState) (f : Fetch)
    (resp : Except String Page) : SearchState :=
  match f, resp with
  | Fetch.search _ _, Except.ok d =>
      { st with
        results := d.videos
        nextPageToken := d.nextPageToken
        totalResults := d.totalResults
        loading := false }
  | Fetch.search _ _, Except.error m =>
      { st with error := some m, loading := false }
  | Fetch.more _ _ base _, Except.ok d =>
      { st with
        results := base ++ d.videos
        nextPageToken := d.nextPageToken
        loading := false }
  | Fetch.more _ _ _ _, Except.error m =>
      { st with error := some m, loading := false }

/-- Event: the `i`-th outstanding fetch completes with response `resp`. -/
def stepComplete (a : App) (i : Nat) (resp : Except String Page) : App :=
  match a.inflight[i]? with
  | none => a
  | some f =>
      { st := applyResp a.st f resp, inflight := a.inflight.eraseIdx i }

/-- States reachable from the initial application by user events and fetch
completions. -/
inductive Reachable : App → Prop
  | init : Reachable appInit
  | search (kw : String) (fl : Filters) {a : App} (h : Reachable a) :
      Reachable (stepSearch a kw fl)
  | more {a : App} (h : Reachable a) : Reachable (stepMore a)
  | complete (i : Nat) (resp : Except String Page) {a : App}
      (h : Reachable a) : Reachable (stepComplete a i resp)

/-!
`VideoCard` pure helpers (`src/components/VideoCard.jsx`).
-/

/-- Case-insensitive match of the keyword characters at the head of the
text (the per-position test performed by the case-insensitive regex). -/
def matchesAt : List Char → List Char → Bool
  | [], _ => true
  | _ :: _, [] => false
  | a :: as, b :: bs => (a.toLower == b.toLower) && matchesAt as bs

/-- `text.split(new RegExp("(" + keyword + ")", "gi"))` for a keyword with
no pattern metacharacters: scan left to right; at each leftmost
case-insensitive occurrence of the keyword emit the piece before it and the
matched slice (original casing), then continue after it. Fuel-recursive so
that it reduces in the kernel; any fuel at least `text.length` is exact,
and smaller fuel still returns a partition of the text. -/
def splitKeepF (k : Char) (ks : List Char) : Nat → List Char → List (List Char)
  | _, [] => [[]]
  | 0, t => [t]
  | fuel + 1, c :: rest =>
    if matchesAt (k :: ks) (c :: rest) then
      [] :: (c :: rest).take (ks.length + 1) ::
        splitKeepF k ks fuel ((c :: rest).drop (ks.length + 1))
    else
      match splitKeepF k ks fuel rest with
      | [] => [[c]]
      | p :: ps => (c :: p) :: ps

/-- JS `text.split(/()/gi)` (empty keyword): the empty pattern matches
between every two characters and the empty capture is spliced in. -/
def emptySplit : List Char → List (List Char)
  | [] => [[]]
  | [c] => [[c]]
  | c :: rest => [c] :: [] :: emptySplit rest

/-- The parts array produced by the `split` call in `highlightText`. -/
def splitParts (textData kwData : List Char) : List (List Char) :=
  match kwData with
  | [] => emptySplit textData
  | k :: ks => splitKeepF k ks textData.length textData

/-- One rendered segment: its literal text, and whether it is wrapped in
the highlight `<span>`. -/
structure Segment where
  text : String
  highlighted : Bool
deriving DecidableEq

/-- `highlightText(text, keyword)`: empty text short-circuits to nothing;
otherwise each part is highlighted iff
`part.toLowerCase() === keyword.toLowerCase()`. -/
def highlightText (text kw : String) : List Segment :=
  if text.isEmpty then []
  else
    (splitParts text.data kw.data).map fun p =>
      { text := String.mk p
        highlighted := p.map Char.toLower == kw.data.map Char.toLower }

/-- Concatenation of the literal text of a segment list, in order. -/
def concatSegs (segs : List Segment) : String :=
  segs.foldl (fun acc sg => acc ++ sg.text) ""

/-!
`formatViews`. The source computes `count / 1000000` and `count / 1000`
in IEEE-754 binary64 and renders one decimal with `toFixed(1)`. Both are
modelled exactly: the double is a dyadic rational `m / 2 ^ s` obtained by
rounding the true quotient to 53 significant bits (round to nearest, ties
to even), and `toFixed(1)` picks the nearest multiple of `1/10` with ties
to the larger value.
-/

/-- Round `num / den` to the nearest integer, ties to even (`den > 0`). -/
def roundHalfEven (num den : Nat) : Nat :=
  let q := num / den
  let r := num % den
  if 2 * r < den then q
  else if den < 2 * r then q + 1
  else if q % 2 = 0 then q else q + 1

/-- Floor of log2, fuel-recursive so it reduces in the kernel. -/
def log2F : Nat → Nat → Nat
  | 0, _ => 0
  | fuel + 1, n => if 2 ≤ n then log2F fuel (n / 2) + 1 else 0

/-- The binary exponent `e` with `2 ^ e ≤ a / b < 2 ^ (e + 1)`, for
`b ≤ a` (quotient at least 1). -/
def ratExp (a b : Nat) : Nat := log2F (a / b) (a / b)

/-- The IEEE-754 binary64 value nearest to `a / b` (for `1 ≤ a / b` in the
normal range), represented exactly as the dyadic pair `(m, s)` with value
`m / 2 ^ s`. -/
def dblP (a b : Nat) : Nat × Nat :=
  let e := ratExp a b
  if e ≤ 52 then (roundHalfEven (a * 2 ^ (52 - e)) b, 52 - e)
  else (roundHalfEven a (b * 2 ^ (e - 52)) * 2 ^ (e - 52), 0)

/-- `x.toFixed(1)` numerator: the integer `n` minimizing `|n/10 - x|`,
ties to the larger `n`, for the dyadic `x = p / 2 ^ s`; that is
`⌊10 x + 1/2⌋ = ⌊(20 p + 2 ^ s) / 2 ^ (s + 1)⌋`. -/
def fix1P (p : Nat × Nat) : Nat :=
  (20 * p.1 + 2 ^ p.2) / 2 ^ (p.2 + 1)

/-- The decimal string `toFixed(1)` renders for `n` tenths. -/
def fix1Str (p : Nat × Nat) : String :=
  let n := fix1P p
  toString (n / 10) ++ "." ++ toString (n % 10)

/-- `formatViews(count)`: millions band, thousands band, else the number
itself (the source returns the raw number there; its only call site
interpolates it into text, which stringifies it). -/
def formatViews (count : Nat) : String :=
  if 1000000 ≤ count then fix1Str (dblP count 1000000) ++ "M"
  else if 1000 ≤ count then fix1Str (dblP count 1000) ++ "K"
  else toString count

/-- Modelled from the spec: the K-band value the spec describes, exact
half-up rounding of `count / 1000` to one decimal, rendered with a "K"
suffix (used to compare the spec's rounding rule with the source's). -/
def specHalfUpK (count : Nat) : String :=
  let t := (20 * count + 1000) / 2000
  toString (t / 10) ++ "." ++ toString (t % 10) ++ "K"

/-!
Concrete fixtures used by witnesses and counterexamples.
-/

/-- A concrete video result. -/
def vid1 : Video :=
  ⟨"v1", "Nike Shoes", "great shoes", "chanA", "2024-01-01", "th1", 1500,
    ["title"], []⟩

/-- A second concrete video result. -/
def vid2 : Video :=
  ⟨"v2", "Air Review", "about nike", "chanB", "2024-02-02", "th2", 2500000,
    ["description"], ["buy nike"]⟩

/-- A third concrete video result. -/
def vid3 : Video :=
  ⟨"v3", "Third Clip", "unrelated", "chanC", "2024-03-03", "th3", 999,
    [], []⟩

/-- First response page, with a continuation token. -/
def pg1 : Page := ⟨[vid1, vid2], some "t2", 35⟩

/-- Second response page, final (no token). -/
def pg2 : Page := ⟨[vid3], none, 35⟩

/-- State after a successful first search for "nike". -/
def ready1 : SearchState :=
  (handleSearch init0 "nike" emptyFilters (Except.ok pg1)).1

/-- State after that search's `loadMore` failed with an HTTP 500. -/
def failed1 : SearchState :=
  (loadMore ready1 (Except.error "Error: Internal Server Error")).1

/-- Application state with one search fetch outstanding. -/
def loadingApp : App := stepSearch appInit "nike" emptyFilters

/-!
Claim theorems.
-/

/-- Helper for C1: folding successful pages whose token chain is unbroken
appends exactly the concatenation of their video arrays, keeps `loading`
false and never recomputes `totalResults`. -/
theorem runLoadMores_spec (pages : List Page) : ∀ s : SearchState,
    s.loading = false → chainOk s.nextPageToken pages = true →
    (runLoadMores s pages).results
        = s.results ++ (pages.map Page.videos).flatten ∧
    (runLoadMores s pages).loading = false ∧
    (runLoadMores s pages).totalResults = s.totalResults := by
  induction pages with
  | nil => intro s hl _; simp [runLoadMores, hl]
  | cons p ps ih =>
    intro s hl hc
    simp only [chainOk, Bool.and_eq_true, Bool.not_eq_true'] at hc
    obtain ⟨ht, hrest⟩ := hc
    have hstep : (loadMore s (Except.ok p)).1 =
        { s with
          results := s.results ++ p.videos
          nextPageToken := p.nextPageToken
          loading := false } := by
      simp [loadMore, ht, hl, moreBegin]
    have hrun : runLoadMores s (p :: ps)
        = runLoadMores ((loadMore s (Except.ok p)).1) ps := rfl
    rw [hrun, hstep]
    have h := ih
      { s with
        results := s.results ++ p.videos
        nextPageToken := p.nextPageToken
        loading := false } rfl hrest
    refine ⟨?_, h.2.1, h.2.2⟩
    rw [h.1]
    simp [List.append_assoc]

/-- C1: after one successful `startSearch` and N successful `loadMore`
calls, `accumulatedResults` is the concatenation of every received page's
video array in arrival order (append-only, no dedup or reorder), and
`totalResults` still reflects the first page only. -/
theorem search_accumulates_pages (s : SearchState) (kw : String)
    (fl : Filters) (p0 : Page) (pages : List Page)
    (hk : trimEmpty kw = false)
    (hc : chainOk p0.nextPageToken pages = true) :
    (runLoadMores (handleSearch s kw fl (Except.ok p0)).1 pages).results
      = p0.videos ++ (pages.map Page.videos).flatten ∧
    (runLoadMores (handleSearch s kw fl (Except.ok p0)).1 pages).totalResults
      = p0.totalResults := by
  have h0 : (handleSearch s kw fl (Except.ok p0)).1 =
      { keyword := kw
        filters := fl
        results := p0.videos
        loading := false
        error := none
        nextPageToken := p0.nextPageToken
        totalResults := p0.totalResults } := by
    simp [handleSearch, hk, searchBegin]
  rw [h0]
  have h := runLoadMores_spec pages
    { keyword := kw
      filters := fl
      results := p0.videos
      loading := false
      error := none
      nextPageToken := p0.nextPageToken
      totalResults := p0.totalResults } rfl hc
  exact ⟨h.1, h.2.2⟩

/-- Witness for C1 at a concrete two-page session. -/
theorem search_accumulates_pages_witness :
    (runLoadMores (handleSearch init0 "nike" emptyFilters
        (Except.ok pg1)).1 [pg2]).results
      = pg1.videos ++ ([pg2].map Page.videos).flatten ∧
    (runLoadMores (handleSearch init0 "nike" emptyFilters
        (Except.ok pg1)).1 [pg2]).totalResults = pg1.totalResults :=
  search_accumulates_pages init0 "nike" emptyFilters pg1 [pg2]
    (by decide) (by decide)

/-- C5: an empty or whitespace-only keyword makes `handleSearch` a strict
no-op (state unchanged, no request), the form submit is swallowed, and the
event model adds no fetch. -/
theorem empty_keyword_noop (s : SearchState) (a : App) (kw : String)
    (fl : Filters) (resp : Except String Page)
    (h : trimEmpty kw = true) :
    handleSearch s kw fl resp = (s, false) ∧
    handleSubmit kw fl = none ∧
    stepSearch a kw fl = a := by
  refine ⟨?_, ?_, ?_⟩ <;> simp [handleSearch, handleSubmit, stepSearch, h]

/-- Witness for C5 at a whitespace keyword. -/
theorem empty_keyword_noop_witness :
    handleSearch init0 "   " emptyFilters (Except.error "E")
      = (init0, false) ∧
    handleSubmit "   " emptyFilters = none ∧
    stepSearch appInit "   " emptyFilters = appInit :=
  empty_keyword_noop init0 appInit "   " emptyFilters (Except.error "E")
    (by decide)

/-- C6: while `loading` is true or the token is absent, `loadMore` issues no
request and changes nothing, in both the atomic and the event model. -/
theorem loadMore_noop_when_blocked (s : SearchState) (a : App)
    (resp : Except String Page)
    (h : s.loading = true ∨ s.nextPageToken = none)
    (ha : a.st.loading = true ∨ a.st.nextPageToken = none) :
    loadMore s resp = (s, false) ∧ stepMore a = a := by
  constructor
  · rcases h with h | h <;> simp [loadMore, h, tokenFalsy]
  · rcases ha with ha | ha <;> simp [stepMore, ha, tokenFalsy]

/-- Witness for C6 at the initial state (token absent). -/
theorem loadMore_noop_when_blocked_witness :
    loadMore init0 (Except.error "E") = (init0, false) ∧
    stepMore appInit = appInit :=
  loadMore_noop_when_blocked init0 appInit (Except.error "E")
    (Or.inr rfl) (Or.inr rfl)

/-- C7: a failed `loadMore` fetch sets `error`, resets `loading`, and leaves
`accumulatedResults` and `nextPageToken` at their pre-call values. -/
theorem loadMore_failure_preserves (s : SearchState) (m : String)
    (ht : tokenFalsy s.nextPageToken = false) (hl : s.loading = false) :
    (loadMore s (Except.error m)).2 = true ∧
    (loadMore s (Except.error m)).1.error = some m ∧
    (loadMore s (Except.error m)).1.loading = false ∧
    (loadMore s (Except.error m)).1.results = s.results ∧
    (loadMore s (Except.error m)).1.nextPageToken = s.nextPageToken := by
  simp [loadMore, ht, hl, moreBegin]

/-- Witness for C7 at the concrete post-search state. -/
theorem loadMore_failure_preserves_witness :
    (loadMore ready1 (Except.error "Error: Internal Server Error")).2
        = true ∧
    (loadMore ready1 (Except.error "Error: Internal Server Error")).1.error
        = some "Error: Internal Server Error" ∧
    (loadMore ready1
        (Except.error "Error: Internal Server Error")).1.loading = false ∧
    (loadMore ready1
        (Except.error "Error: Internal Server Error")).1.results
        = ready1.results ∧
    (loadMore ready1
        (Except.error "Error: Internal Server Error")).1.nextPageToken
        = ready1.nextPageToken :=
  loadMore_failure_preserves ready1 "Error: Internal Server Error"
    (by decide) (by decide)

/-- C10: after a failed `loadMore` the token survives and `loading` is
false again, so the very next `loadMore` passes the guard and issues a new
request — pagination is never disabled by a failure. -/
theorem loadMore_retry_after_failure (s : SearchState) (m : String)
    (resp : Except String Page)
    (ht : tokenFalsy s.nextPageToken = false) (hl : s.loading = false) :
    (loadMore s (Except.error m)).1.error = some m ∧
    (loadMore s (Except.error m)).1.nextPageToken = s.nextPageToken ∧
    (loadMore s (Except.error m)).1.loading = false ∧
    (loadMore (loadMore s (Except.error m)).1 resp).2 = true := by
  cases resp <;> simp [loadMore, ht, hl, moreBegin]

/-- Witness for C10 at the concrete failed state. -/
theorem loadMore_retry_after_failure_witness :
    (loadMore ready1 (Except.error "Error: Internal Server Error")).1.error
        = some "Error: Internal Server Error" ∧
    (loadMore ready1
        (Except.error "Error: Internal Server Error")).1.nextPageToken
        = ready1.nextPageToken ∧
    (loadMore ready1
        (Except.error "Error: Internal Server Error")).1.loading = false ∧
    (loadMore (loadMore ready1
        (Except.error "Error: Internal Server Error")).1
        (Except.ok pg2)).2 = true :=
  loadMore_retry_after_failure ready1 "Error: Internal Server Error"
    (Except.ok pg2) (by decide) (by decide)

/-- Every fetch continuation resets `loading` in its `finally` block. -/
theorem applyResp_loading (st : SearchState) (f : Fetch)
    (resp : Except String Page) : (applyResp st f resp).loading = false := by
  cases f <;> cases resp <;> rfl

/-- C3 counterexample: submitting a second search while the first fetch is
still outstanding reaches a state with TWO fetches in flight —
`handleSearch` has no `loading` guard and there is no cancellation. -/
theorem two_searches_two_fetches :
    Reachable (stepSearch (stepSearch appInit "nike" emptyFilters)
      "adidas" emptyFilters) ∧
    (stepSearch (stepSearch appInit "nike" emptyFilters)
      "adidas" emptyFilters).inflight.length = 2 :=
  ⟨Reachable.search "adidas" emptyFilters
      (Reachable.search "nike" emptyFilters Reachable.init),
    by decide⟩

/-- C3 (amended): only `loadMore` is guarded by `loading` — while `loading`
is true a load-more click is a strict no-op (no state change, no fetch);
consequently whenever no fetch is outstanding, `loading` is false. (A
`startSearch` during an in-flight fetch is NOT guarded and creates a second
outstanding fetch, as the counterexample shows.) -/
theorem loadMore_single_flight :
    (∀ a : App, a.st.loading = true → stepMore a = a) ∧
    (∀ a : App, Reachable a → a.inflight = [] → a.st.loading = false) := by
  constructor
  · intro a h
    simp [stepMore, h]
  · intro a h
    induction h with
    | init => intro _; rfl
    | @search kw fl b h ih =>
        by_cases hg : trimEmpty kw
        · simpa [stepSearch, hg] using ih
        · intro hempty
          exfalso
          revert hempty
          simp [stepSearch, hg]
    | @more b h ih =>
        by_cases hg :
            (tokenFalsy b.st.nextPageToken || b.st.loading) = true
        · simpa [stepMore, hg] using ih
        · intro hempty
          exfalso
          revert hempty
          simp [stepMore, hg]
    | @complete i resp b h ih =>
        rcases hg : b.inflight[i]? with _ | f
        · simpa [stepComplete, hg] using ih
        · intro _
          simp [stepComplete, hg, applyResp_loading]

/-- Witness for C3's amended theorem: a blocked load-more click on the
concrete loading state, and the initial state's invariant instance. -/
theorem loadMore_single_flight_witness :
    stepMore loadingApp = loadingApp ∧ appInit.st.loading = false :=
  ⟨loadMore_single_flight.1 loadingApp (by decide),
    loadMore_single_flight.2 appInit Reachable.init rfl⟩

/-- C4 counterexample: a reachable state with a stale `error` and a live
token. The next `loadMore` issues a request whose begin state still carries
the old error (it is not cleared), and after the request SUCCEEDS the state
has both the appended results and the stale error populated — refuting
"starting the request sets error=absent" and the exactly-one-of completion
property for `loadMore` cycles. -/
theorem loadMore_keeps_stale_error :
    failed1.error = some "Error: Internal Server Error" ∧
    failed1.loading = false ∧
    tokenFalsy failed1.nextPageToken = false ∧
    (moreBegin failed1).error = some "Error: Internal Server Error" ∧
    (loadMore failed1 (Except.ok pg2)).2 = true ∧
    (loadMore failed1 (Except.ok pg2)).1.error
      = some "Error: Internal Server Error" ∧
    (loadMore failed1 (Except.ok pg2)).1.results = [vid1, vid2, vid3] := by
  refine ⟨by decide, by decide, by decide, by decide, by decide, by decide,
    by decide⟩

/-- C4 (amended): per request cycle, `handleSearch` sets `loading=true` and
clears `error` at the start and on completion exactly one of the success
fields or `error` is populated, with `loading=false`; `loadMore` sets
`loading=true` but does NOT clear a pre-existing `error` — on completion
`loading=false`, a failure sets `error`, and a success leaves `error` at
its pre-call value, so the mutual exclusion holds for a load-more cycle
only when `error` was absent when it started. -/
theorem request_cycle_flags :
    (∀ (s : SearchState) (kw : String) (fl : Filters),
      (searchBegin s kw fl).loading = true ∧
      (searchBegin s kw fl).error = none) ∧
    (∀ (s : SearchState) (kw : String) (fl : Filters) (p : Page),
      trimEmpty kw = false →
      (handleSearch s kw fl (Except.ok p)).1.loading = false ∧
      (handleSearch s kw fl (Except.ok p)).1.error = none ∧
      (handleSearch s kw fl (Except.ok p)).1.results = p.videos) ∧
    (∀ (s : SearchState) (kw : String) (fl : Filters) (m : String),
      trimEmpty kw = false →
      (handleSearch s kw fl (Except.error m)).1.loading = false ∧
      (handleSearch s kw fl (Except.error m)).1.error = some m ∧
      (handleSearch s kw fl (Except.error m)).1.results = []) ∧
    (∀ s : SearchState,
      (moreBegin s).loading = true ∧ (moreBegin s).error = s.error) ∧
    (∀ (s : SearchState) (p : Page),
      tokenFalsy s.nextPageToken = false → s.loading = false →
      (loadMore s (Except.ok p)).1.loading = false ∧
      (loadMore s (Except.ok p)).1.error = s.error ∧
      (loadMore s (Except.ok p)).1.results = s.results ++ p.videos) ∧
    (∀ (s : SearchState) (m : String),
      tokenFalsy s.nextPageToken = false → s.loading = false →
      (loadMore s (Except.error m)).1.loading = false ∧
      (loadMore s (Except.error m)).1.error = some m) := by
  refine ⟨?_, ?_, ?_, ?_, ?_, ?_⟩ <;> intros <;>
    simp_all [searchBegin, handleSearch, moreBegin, loadMore]

/-- Witness for C4's amended theorem: the successful load-more cycle from
the concrete post-search state keeps `error` at its pre-call value. -/
theorem request_cycle_flags_witness :
    (loadMore ready1 (Except.ok pg2)).1.loading = false ∧
    (loadMore ready1 (Except.ok pg2)).1.error = ready1.error ∧
    (loadMore ready1 (Except.ok pg2)).1.results
      = ready1.results ++ pg2.videos :=
  request_cycle_flags.2.2.2.2.1 ready1 pg2 (by decide) (by decide)

/-- Helper for C2: the split is a partition — flattening the parts gives
back exactly the scanned characters, for any fuel. -/
theorem splitKeepF_flatten (k : Char) (ks : List Char) :
    ∀ (fuel : Nat) (t : List Char), (splitKeepF k ks fuel t).flatten = t := by
  intro fuel
  induction fuel with
  | zero =>
      intro t
      cases t <;> simp [splitKeepF]
  | succ n ih =>
      intro t
      cases t with
      | nil => simp [splitKeepF]
      | cons c rest =>
          by_cases hm : matchesAt (k :: ks) (c :: rest) = true
          · simp [splitKeepF, hm, ih]
          · have hrest := ih rest
            rcases hsp : splitKeepF k ks n rest with _ | ⟨p, ps⟩
            · rw [hsp] at hrest
              simp at hrest
              simp [splitKeepF, hm, hsp, ← hrest]
            · rw [hsp] at hrest
              simp [splitKeepF, hm, hsp]
              simpa using hrest

/-- Helper for C2: the data of a left fold of string appends is the
flattened data. -/
theorem concat_data (segs : List Segment) : ∀ acc : String,
    (segs.foldl (fun a sg => a ++ sg.text) acc).data
      = acc.data ++ (segs.map fun sg => sg.text.data).flatten := by
  induction segs with
  | nil => intro acc; simp
  | cons sg rest ih =>
      intro acc
      have happ : (acc ++ sg.text).data = acc.data ++ sg.text.data := rfl
      simp [List.foldl_cons, ih, happ]

/-- C2 (intended literal-matching semantics): concatenating the literal
text of the segments of `highlight(text, keyword)` reproduces `text`
exactly, for every text and every non-empty keyword matched literally. -/
theorem highlight_roundtrip (text kw : String)
    (htext : text.isEmpty = false) (hkw : kw.data ≠ []) :
    concatSegs (highlightText text kw) = text := by
  have hd : (concatSegs (highlightText text kw)).data = text.data := by
    rw [concatSegs, concat_data]
    rcases hk : kw.data with _ | ⟨k, ks⟩
    · exact absurd hk hkw
    · rw [highlightText, if_neg (by simp [htext]), hk, splitParts,
        List.map_map]
      have hcomp : ((fun sg : Segment => sg.text.data) ∘ fun p =>
          ({ text := String.mk p,
             highlighted :=
               p.map Char.toLower == (k :: ks).map Char.toLower } :
            Segment)) = id := rfl
      rw [hcomp, List.map_id, splitKeepF_flatten]
      rfl
  exact congrArg String.mk hd

/-- Witness for C2 at a concrete mixed-case text/keyword pair. -/
theorem highlight_roundtrip_witness :
    concatSegs (highlightText "I love Nike and NIKEs" "nike")
      = "I love Nike and NIKEs" :=
  highlight_roundtrip "I love Nike and NIKEs" "nike" (by decide) (by decide)

/-- C8: a segment is tagged highlighted exactly when its text equals the
keyword case-insensitively (`part.toLowerCase() === keyword.toLowerCase()`),
for every text and keyword. -/
theorem highlight_tag_iff (text kw : String) (sg : Segment)
    (h : sg ∈ highlightText text kw) :
    sg.highlighted = true ↔
      sg.text.data.map Char.toLower = kw.data.map Char.toLower := by
  rw [highlightText] at h
  by_cases he : text.isEmpty = true
  · simp [he] at h
  · rw [if_neg he, List.mem_map] at h
    obtain ⟨p, hp, rfl⟩ := h
    simp

/-- Witness for C8 at a concrete segment of a concrete call. -/
theorem highlight_tag_iff_witness :
    (Segment.mk "NIKE" true).highlighted = true ↔
      (Segment.mk "NIKE" true).text.data.map Char.toLower
        = ("nike" : String).data.map Char.toLower :=
  highlight_tag_iff "xNIKEx" "nike" (Segment.mk "NIKE" true) (by decide)

/-- Helper for C9: the fuel-based floor log2 respects power bounds. -/
theorem log2F_le (fuel : Nat) : ∀ (q k : Nat),
    q < 2 ^ (k + 1) → log2F fuel q ≤ k := by
  induction fuel with
  | zero => intro q k _; simp [log2F]
  | succ m ih =>
      intro q k hq
      by_cases h2 : 2 ≤ q
      · have hk1 : 1 ≤ k := by
          by_contra hk0
          have hkz : k = 0 := by omega
          subst hkz
          simp [pow_one] at hq
          omega
        have hpow : 2 ^ (k - 1 + 1) * 2 = 2 ^ (k + 1) := by
          rw [← pow_succ]
          congr 1
          omega
        have hdiv : q / 2 < 2 ^ (k - 1 + 1) := by
          refine (Nat.div_lt_iff_lt_mul (by norm_num)).mpr ?_
          rw [hpow]
          exact hq
        have hrec := ih (q / 2) (k - 1) hdiv
        rw [log2F, if_pos h2]
        omega
      · rw [log2F, if_neg h2]
        omega

/-- Helper for C9: in the thousands band, whenever `count / 1000` is
exactly representable (a multiple of `1/8`, i.e. `125 ∣ count`), the
binary64 quotient is exact and `toFixed(1)` agrees with decimal half-up
rounding. -/
theorem formatViews_K_exact (n : Nat) (h1 : 1000 ≤ n) (h2 : n < 1000000)
    (h125 : 125 ∣ n) : formatViews n = specHalfUpK n := by
  have hm : ¬ 1000000 ≤ n := by omega
  rw [formatViews, if_neg hm, if_pos h1]
  have hqlt : n / 1000 < 2 ^ (9 + 1) := by
    have hq : n / 1000 < 1024 := by omega
    simpa using hq
  have he : ratExp n 1000 ≤ 9 := log2F_le (n / 1000) (n / 1000) 9 hqlt
  set e := ratExp n 1000 with hedef
  have hbranch : dblP n 1000
      = (roundHalfEven (n * 2 ^ (52 - e)) 1000, 52 - e) := by
    simp only [dblP]
    rw [if_pos (show ratExp n 1000 ≤ 52 by omega)]
  obtain ⟨w, hw⟩ := h125
  have hpow8 : (2:Nat) ^ (52 - e) = 2 ^ 3 * 2 ^ (52 - e - 3) := by
    rw [← pow_add]
    congr 1
    omega
  have hdvd : 1000 ∣ n * 2 ^ (52 - e) := by
    refine ⟨w * 2 ^ (52 - e - 3), ?_⟩
    rw [hw, hpow8]
    ring
  obtain ⟨t, ht⟩ := hdvd
  have hmod : (n * 2 ^ (52 - e)) % 1000 = 0 := by
    rw [ht]
    exact Nat.mul_mod_right 1000 t
  have hdivq : (n * 2 ^ (52 - e)) / 1000 = t := by
    rw [ht]
    exact Nat.mul_div_cancel_left t (by norm_num)
  have hrhe : roundHalfEven (n * 2 ^ (52 - e)) 1000 = t := by
    simp [roundHalfEven, hmod, hdivq]
  have hpos : 0 < (2:Nat) ^ (52 - e + 1) :=
    Nat.pos_pow_of_pos _ (by norm_num)
  have key : 2 ^ (52 - e + 1) * (20 * n + 1000)
      = 2000 * (20 * t + 2 ^ (52 - e)) := by
    have h2 : (2:Nat) ^ (52 - e + 1) = 2 * 2 ^ (52 - e) := by
      rw [pow_succ]
      ring
    calc 2 ^ (52 - e + 1) * (20 * n + 1000)
        = 2 * (20 * (n * 2 ^ (52 - e)) + 1000 * 2 ^ (52 - e)) := by
          rw [h2]; ring
      _ = 2 * (20 * (1000 * t) + 1000 * 2 ^ (52 - e)) := by rw [ht]
      _ = 2000 * (20 * t + 2 ^ (52 - e)) := by ring
  have hfix : fix1P (t, 52 - e) = (20 * n + 1000) / 2000 := by
    simp only [fix1P]
    have st1 : (20 * t + 2 ^ (52 - e)) / 2 ^ (52 - e + 1)
        = 2000 * (20 * t + 2 ^ (52 - e)) / (2000 * 2 ^ (52 - e + 1)) :=
      (Nat.mul_div_mul_left _ _ (by norm_num)).symm
    have st2 : 2 ^ (52 - e + 1) * (20 * n + 1000)
          / (2 ^ (52 - e + 1) * 2000)
        = (20 * n + 1000) / 2000 :=
      Nat.mul_div_mul_left _ _ hpos
    rw [st1, ← key, Nat.mul_comm 2000 (2 ^ (52 - e + 1)), st2]
  rw [hbranch, hrhe]
  simp only [fix1Str, specHalfUpK, hfix]

/-- C9 counterexample: `1150 / 1000` is not exactly representable in
binary64 (the nearest double is just below `1.15`), so the source renders
"1.1K" where standard half-up rounding would give "1.2K". -/
theorem formatViews_halfup_cex :
    formatViews 1150 = "1.1K" ∧ specHalfUpK 1150 = "1.2K" ∧
    formatViews 1150 ≠ specHalfUpK 1150 :=
  ⟨by decide, by decide, by decide⟩

/-- C9 (amended): the three example values hold; below 1000 the count is
rendered as-is; and in the thousands band the one-decimal value is
`toFixed(1)` of the binary64 quotient, which coincides with half-up
rounding whenever the quotient is exactly representable (all multiples of
125), though not in general. -/
theorem formatViews_amended :
    formatViews 999 = "999" ∧
    formatViews 1500 = "1.5K" ∧
    formatViews 2500000 = "2.5M" ∧
    (∀ n : Nat, n < 1000 → formatViews n = toString n) ∧
    (∀ n : Nat, 1000 ≤ n → n < 1000000 → 125 ∣ n →
      formatViews n = specHalfUpK n) := by
  refine ⟨by decide, by decide, by decide, ?_, ?_⟩
  · intro n hn
    rw [formatViews, if_neg (by omega), if_neg (by omega)]
  · intro n h1 h2 h125
    exact formatViews_K_exact n h1 h2 h125

/-- Witness for C9's amended theorem: 1250 is a multiple of 125, and both
routes render "1.3K" (ties go to the larger value in `toFixed`). -/
theorem formatViews_amended_witness :
    formatViews 1250 = specHalfUpK 1250 :=
  formatViews_amended.2.2.2.2 1250 (by norm_num) (by norm_num) (by norm_num)

end BrandSearch
